import Mathlib

/-!
Verification of the job-status polling client in `src/frontend/lib/api.ts`
(`ApiClient.getJobStatus`, `ApiClient.pollJobStatus`, `ApiClient.uploadVideo`).

The client is embedded shallowly.  A run of `pollJobStatus` is determined by
the sequence of outcomes the transport produces for the successive
`getJobStatus` calls; we call that sequence a *script* (`List FetchResult`)
and compute the observable *trace* of the run (`List PollEvent`): requests
issued, callback invocations, `setTimeout` delays, and the final settlement
of the returned promise.  JavaScript's `||` fallback on strings is modelled
by `jsOrElse` (the empty string is falsy).  JS numeric fields that the
client never computes with (`progress_percent`, clip offsets) are carried
as integers.
-/

namespace TikTokApi

/-- Job status values, the closed set from the `JobStatusResponse` interface. -/
inductive JobStatus
  | pending
  | processing
  | completed
  | failed
deriving DecidableEq, Repr

/-- One caption record inside `results.captions`. -/
structure CaptionRecord where
  caption : String
  hashtags : List String
  character_count : Int
deriving DecidableEq, Repr

/-- One clip record inside `results.clips`. -/
structure ClipRecord where
  start_time : Int
  end_time : Int
  description : String
deriving DecidableEq, Repr

/-- The optional `results` payload of a completed job. -/
structure JobResults where
  transcript : String
  viral_hooks : List String
  captions : List CaptionRecord
  clips : List ClipRecord
  download_url : Option String
deriving DecidableEq, Repr

/-- The `JobStatusResponse` interface: one status snapshot of a job. -/
structure JobStatusResponse where
  job_id : String
  status : JobStatus
  progress_percent : Int
  message : String
  results : Option JobResults
deriving DecidableEq, Repr

/-- JavaScript `a || b` for strings: the empty string is falsy, so it is
replaced by the fallback `b`. -/
def jsOrElse (a b : String) : String :=
  if a = "" then b else a

/-- A failure surfaced by the client: `errorMessage m` is `new Error(m)`
thrown by the client's own code, `parseFailure` is a rejected
`response.json()` on a malformed body, `networkFailure` is `fetch`
itself rejecting. -/
inductive ApiFailure
  | errorMessage (msg : String)
  | parseFailure
  | networkFailure
deriving DecidableEq, Repr

/-- The outcome of one `fetch` of the status endpoint, as seen by
`getJobStatus`: the network fails; or a 2xx response whose body parses as a
snapshot (`success`) or fails to parse (`successMalformed`); or a non-2xx
response whose JSON body has an optional `detail` string (`failure`, with
`none` for an absent field) or fails to parse (`failureMalformed`). -/
inductive FetchResult
  | networkError
  | success (body : JobStatusResponse)
  | successMalformed
  | failure (detail : Option String)
  | failureMalformed
deriving DecidableEq, Repr

/-- `ApiClient.getJobStatus`, given the transport outcome of its single
`fetch`:

* `fetch` rejecting propagates out of the `async` function;
* on a non-2xx response it parses the body and throws
  `new Error(error.detail || 'Failed to get job status')`;
* on a 2xx response it returns `response.json()`;
* either `response.json()` rejecting propagates as a parse failure. -/
def getJobStatus : FetchResult → Except ApiFailure JobStatusResponse
  | .networkError => .error .networkFailure
  | .success body => .ok body
  | .successMalformed => .error .parseFailure
  | .failure detail =>
      .error (.errorMessage (jsOrElse (detail.getD "") "Failed to get job status"))
  | .failureMalformed => .error .parseFailure

/-- Observable events of one `pollJobStatus` run: a `getJobStatus` call being
issued, an `onUpdate` callback invocation, a `setTimeout` delay of `ms`
milliseconds before the next tick, and the settlement of the returned
promise (`resolved` / `rejected`). -/
inductive PollEvent
  | request
  | update (snapshot : JobStatusResponse)
  | sleep (ms : Nat)
  | resolved (snapshot : JobStatusResponse)
  | rejected (e : ApiFailure)
deriving DecidableEq, Repr

/-- The trace of `ApiClient.pollJobStatus`, run against a script of fetch
outcomes.  Each tick of the inner `poll` closure issues one `getJobStatus`
call and consumes the next script entry; an exhausted script means the
request hangs with no response, so the trace ends after that `request`.
On a response the tick invokes `onUpdate` when a callback was supplied
(`hasCallback`), then resolves on `completed`, rejects with
`new Error(status.message || 'Job failed')` on `failed`, and otherwise
runs `setTimeout(poll, interval)`; a `getJobStatus` failure is caught and
rejects the promise with that error. -/
def pollEvents (interval : Nat) (hasCallback : Bool) : List FetchResult → List PollEvent
  | [] => [PollEvent.request]
  | r :: rs =>
      PollEvent.request ::
        match getJobStatus r with
        | .error e => [PollEvent.rejected e]
        | .ok status =>
            (if hasCallback then [PollEvent.update status] else []) ++
              match status.status with
              | .completed => [PollEvent.resolved status]
              | .failed =>
                  [PollEvent.rejected (.errorMessage (jsOrElse status.message "Job failed"))]
              | _ => PollEvent.sleep interval :: pollEvents interval hasCallback rs

/-- Default of the `interval` parameter of `pollJobStatus`. -/
def defaultPollInterval : Nat := 2000

/-- `pollJobStatus` invoked without an explicit interval argument. -/
def pollEventsDefault (hasCallback : Bool) (script : List FetchResult) : List PollEvent :=
  pollEvents defaultPollInterval hasCallback script

/-- The settlement of the run's promise, read off its trace: `some (.ok s)`
for a resolution with `s`, `some (.error e)` for a rejection with `e`,
`none` when the run never settles. -/
def settleOf : List PollEvent → Option (Except ApiFailure JobStatusResponse)
  | [] => none
  | PollEvent.resolved s :: _ => some (.ok s)
  | PollEvent.rejected e :: _ => some (.error e)
  | _ :: es => settleOf es

/-- The settlement of a `pollJobStatus` run on a script. -/
def pollResult (interval : Nat) (hasCallback : Bool) (script : List FetchResult) :
    Option (Except ApiFailure JobStatusResponse) :=
  settleOf (pollEvents interval hasCallback script)

/-- The snapshots passed to `onUpdate`, in invocation order, read off a trace. -/
def updatesOf : List PollEvent → List JobStatusResponse
  | [] => []
  | PollEvent.update s :: es => s :: updatesOf es
  | _ :: es => updatesOf es

/-- Whether an event settles the promise. -/
def PollEvent.isSettle : PollEvent → Bool
  | .resolved _ => true
  | .rejected _ => true
  | _ => false

/-- Whether a status is terminal (`completed` or `failed`). -/
def JobStatus.isTerminal : JobStatus → Bool
  | .completed => true
  | .failed => true
  | _ => false

/-- `API_URL` fallback used by the client constructor. -/
def API_URL : String := "https://stacksliceai.onrender.com"

/-- An outgoing HTTP request: its URL and header list, in the order the
client sets them. -/
structure HttpRequest where
  url : String
  headers : List (String × String)
deriving DecidableEq, Repr

/-- `ApiClient.getToken`: `localStorage.getItem('token')`, the token held in
browser-local session storage at the time of the call (`none` when absent). -/
def getToken (stored : Option String) : Option String :=
  stored

/-- JavaScript truthiness of the `string | null` token, as tested by
`if (token)` and `if (!token)`: `null` and the empty string are falsy, so a
stored empty-string token counts as no token at all. -/
def truthyToken (token : Option String) : Option String :=
  match token with
  | none => none
  | some t => if t = "" then none else some t

/-- The request `getJobStatus` hands to `fetch`: the job URL, with a
`Content-Type` header always, and an `Authorization` bearer header only when
the token from `getToken` passes the `if (token)` truthiness check. -/
def getJobStatusRequest (stored : Option String) (jobId : String) : HttpRequest :=
  { url := API_URL ++ "/jobs/" ++ jobId
    headers :=
      match truthyToken (getToken stored) with
      | some t => [("Content-Type", "application/json"), ("Authorization", "Bearer " ++ t)]
      | none => [("Content-Type", "application/json")] }

/-- The XHR `uploadVideo` sends when it has a token: `POST {baseUrl}/upload`
with the bearer header set via `xhr.setRequestHeader`. -/
def uploadRequest (token : String) : HttpRequest :=
  { url := API_URL ++ "/upload"
    headers := [("Authorization", "Bearer " ++ token)] }

/-- The send phase of `ApiClient.uploadVideo`: it reads the token from
session storage and, when the `if (!token)` truthiness check fails (no
stored token, or a stored empty string), throws
`new Error('Not authenticated. Please log in.')` before constructing the
`XMLHttpRequest`; otherwise the upload request goes out with the bearer
header. -/
def uploadVideoSend (stored : Option String) : Except ApiFailure HttpRequest :=
  match truthyToken (getToken stored) with
  | none => .error (.errorMessage "Not authenticated. Please log in.")
  | some t => .ok (uploadRequest t)

/-- The upload requests `uploadVideo` puts on the wire for a given session
storage state: none at all when the token check throws, exactly the one
authorized request otherwise. -/
def uploadRequestsIssued (stored : Option String) : List HttpRequest :=
  match uploadVideoSend stored with
  | .error _ => []
  | .ok r => [r]

/-- Number of `getJobStatus` calls recorded in a trace. -/
def requestCount : List PollEvent → Nat
  | [] => 0
  | PollEvent.request :: es => requestCount es + 1
  | _ :: es => requestCount es

/-- Checks that settlement events occur only in the final position of a
trace: once the promise settles, nothing further happens. -/
def settleOnlyLast : List PollEvent → Bool
  | [] => true
  | [_] => true
  | e :: f :: rest => ! e.isSettle && settleOnlyLast (f :: rest)

deriving instance DecidableEq for Except

/-- Demo snapshot: the job queued at 0 percent. -/
def demoPending : JobStatusResponse :=
  { job_id := "job-1", status := .pending, progress_percent := 0,
    message := "Queued", results := none }

/-- Demo snapshot: the job mid-run at 40 percent. -/
def demoProcessing : JobStatusResponse :=
  { job_id := "job-1", status := .processing, progress_percent := 40,
    message := "Generating hooks", results := none }

/-- Demo snapshot: the completed job carrying two viral hooks. -/
def demoCompleted : JobStatusResponse :=
  { job_id := "job-1", status := .completed, progress_percent := 100,
    message := "Done",
    results := some
      { transcript := "full transcript", viral_hooks := ["Hook A", "Hook B"],
        captions := [], clips := [], download_url := none } }

/-- Demo snapshot: the job failed with a transcription error message. -/
def demoFailed : JobStatusResponse :=
  { job_id := "job-1", status := .failed, progress_percent := 55,
    message := "Transcription error", results := none }

/-! Helper lemmas about the trace semantics. -/

@[simp] theorem settleOf_nil : settleOf [] = none := rfl

@[simp] theorem settleOf_request (es : List PollEvent) :
    settleOf (PollEvent.request :: es) = settleOf es := rfl

@[simp] theorem settleOf_update (s : JobStatusResponse) (es : List PollEvent) :
    settleOf (PollEvent.update s :: es) = settleOf es := rfl

@[simp] theorem settleOf_sleep (n : Nat) (es : List PollEvent) :
    settleOf (PollEvent.sleep n :: es) = settleOf es := rfl

@[simp] theorem settleOf_resolved (s : JobStatusResponse) (es : List PollEvent) :
    settleOf (PollEvent.resolved s :: es) = some (.ok s) := rfl

@[simp] theorem settleOf_rejected (e : ApiFailure) (es : List PollEvent) :
    settleOf (PollEvent.rejected e :: es) = some (.error e) := rfl

@[simp] theorem updatesOf_nil : updatesOf [] = [] := rfl

@[simp] theorem updatesOf_request (es : List PollEvent) :
    updatesOf (PollEvent.request :: es) = updatesOf es := rfl

@[simp] theorem updatesOf_update (s : JobStatusResponse) (es : List PollEvent) :
    updatesOf (PollEvent.update s :: es) = s :: updatesOf es := rfl

@[simp] theorem updatesOf_sleep (n : Nat) (es : List PollEvent) :
    updatesOf (PollEvent.sleep n :: es) = updatesOf es := rfl

@[simp] theorem updatesOf_resolved (s : JobStatusResponse) (es : List PollEvent) :
    updatesOf (PollEvent.resolved s :: es) = updatesOf es := rfl

@[simp] theorem updatesOf_rejected (e : ApiFailure) (es : List PollEvent) :
    updatesOf (PollEvent.rejected e :: es) = updatesOf es := rfl

@[simp] theorem requestCount_nil : requestCount [] = 0 := rfl

@[simp] theorem requestCount_request (es : List PollEvent) :
    requestCount (PollEvent.request :: es) = requestCount es + 1 := rfl

@[simp] theorem requestCount_update (s : JobStatusResponse) (es : List PollEvent) :
    requestCount (PollEvent.update s :: es) = requestCount es := rfl

@[simp] theorem requestCount_sleep (n : Nat) (es : List PollEvent) :
    requestCount (PollEvent.sleep n :: es) = requestCount es := rfl

@[simp] theorem requestCount_resolved (s : JobStatusResponse) (es : List PollEvent) :
    requestCount (PollEvent.resolved s :: es) = requestCount es := rfl

@[simp] theorem requestCount_rejected (e : ApiFailure) (es : List PollEvent) :
    requestCount (PollEvent.rejected e :: es) = requestCount es := rfl

/-- A tick that observes a `pending` or `processing` snapshot emits the
request, the optional callback, and one `setTimeout` delay, then the loop
continues with the remaining script. -/
theorem pollEvents_cons_nonterminal {s : JobStatusResponse}
    (hs : s.status = .pending ∨ s.status = .processing)
    (interval : Nat) (cb : Bool) (rs : List FetchResult) :
    pollEvents interval cb (FetchResult.success s :: rs) =
      PollEvent.request :: ((if cb then [PollEvent.update s] else []) ++
        PollEvent.sleep interval :: pollEvents interval cb rs) := by
  rcases hs with h | h <;> simp [pollEvents, getJobStatus, h]

/-- A tick that observes a `completed` snapshot fires the callback and
resolves. -/
theorem pollEvents_cons_completed {s : JobStatusResponse}
    (hs : s.status = .completed) (interval : Nat) (cb : Bool) (rs : List FetchResult) :
    pollEvents interval cb (FetchResult.success s :: rs) =
      PollEvent.request :: ((if cb then [PollEvent.update s] else []) ++
        [PollEvent.resolved s]) := by
  simp [pollEvents, getJobStatus, hs]

/-- A tick that observes a `failed` snapshot fires the callback and rejects
with the snapshot's message, falling back to the generic string. -/
theorem pollEvents_cons_failed {s : JobStatusResponse}
    (hs : s.status = .failed) (interval : Nat) (cb : Bool) (rs : List FetchResult) :
    pollEvents interval cb (FetchResult.success s :: rs) =
      PollEvent.request :: ((if cb then [PollEvent.update s] else []) ++
        [PollEvent.rejected (.errorMessage (jsOrElse s.message "Job failed"))]) := by
  simp [pollEvents, getJobStatus, hs]

/-- A tick whose `getJobStatus` call fails rejects at once with that error. -/
theorem pollEvents_cons_error {r : FetchResult} {e : ApiFailure}
    (he : getJobStatus r = .error e) (interval : Nat) (cb : Bool) (rs : List FetchResult) :
    pollEvents interval cb (r :: rs) = [PollEvent.request, PollEvent.rejected e] := by
  cases r <;> simp_all [pollEvents, getJobStatus]

/-- The optional callback block never settles nor re-requests, so settlement
lookup passes over it. -/
theorem settleOf_callback_block (cb : Bool) (s : JobStatusResponse) (es : List PollEvent) :
    settleOf ((if cb then [PollEvent.update s] else []) ++ es) = settleOf es := by
  cases cb <;> simp

/-- Every trace begins with a request: the first status query is issued
immediately, before any delay. -/
theorem pollEvents_head (interval : Nat) (cb : Bool) (script : List FetchResult) :
    (pollEvents interval cb script).head? = some PollEvent.request := by
  cases script <;> rfl

/-- Prepending a non-settling event preserves `settleOnlyLast`. -/
theorem settleOnlyLast_cons {l : List PollEvent} (e : PollEvent)
    (he : e.isSettle = false) (hl : settleOnlyLast l = true) :
    settleOnlyLast (e :: l) = true := by
  cases l with
  | nil => rfl
  | cons f rest => simp [settleOnlyLast, he, hl]

/-- In every poll trace, a settlement event can only be the last event. -/
theorem settleOnlyLast_pollEvents (interval : Nat) (cb : Bool) (script : List FetchResult) :
    settleOnlyLast (pollEvents interval cb script) = true := by
  induction script with
  | nil => rfl
  | cons r rs ih =>
      cases r with
      | success body =>
          rcases hb : body.status with _ | _ | _ | _
          · rw [pollEvents_cons_nonterminal (Or.inl hb)]
            refine settleOnlyLast_cons _ rfl ?_
            cases cb with
            | true =>
                exact settleOnlyLast_cons _ rfl (settleOnlyLast_cons _ rfl ih)
            | false =>
                simpa using settleOnlyLast_cons (PollEvent.sleep interval) rfl ih
          · rw [pollEvents_cons_nonterminal (Or.inr hb)]
            refine settleOnlyLast_cons _ rfl ?_
            cases cb with
            | true =>
                exact settleOnlyLast_cons _ rfl (settleOnlyLast_cons _ rfl ih)
            | false =>
                simpa using settleOnlyLast_cons (PollEvent.sleep interval) rfl ih
          · rw [pollEvents_cons_completed hb]
            cases cb <;> simp [settleOnlyLast, PollEvent.isSettle]
          · rw [pollEvents_cons_failed hb]
            cases cb <;> simp [settleOnlyLast, PollEvent.isSettle]
      | networkError => rfl
      | successMalformed => rfl
      | failure detail => rfl
      | failureMalformed => rfl

/-- Splitting a `settleOnlyLast` trace at a settlement event leaves nothing
after it. -/
theorem settleOnlyLast_extract :
    ∀ (pre : List PollEvent) (e : PollEvent) (post : List PollEvent),
      settleOnlyLast (pre ++ e :: post) = true → e.isSettle = true → post = [] := by
  intro pre
  induction pre with
  | nil =>
      intro e post h hs
      cases post with
      | nil => rfl
      | cons f rest =>
          rw [List.nil_append] at h
          simp [settleOnlyLast, hs] at h
  | cons p pre ih =>
      intro e post h hs
      refine ih e post ?_ hs
      rcases hq : pre ++ e :: post with _ | ⟨q, tail⟩
      · exact absurd hq (by simp)
      · rw [List.cons_append, hq] at h
        simp only [settleOnlyLast, Bool.and_eq_true] at h
        exact h.2

/-! The claims. -/

/-- C1: for every finite sequence of status responses whose last element is
`completed` and whose earlier elements are all `pending` or `processing`,
`pollJobStatus` invokes the supplied `onUpdate` callback once per response,
in the order received, and its promise resolves with exactly the final
`completed` snapshot. -/
theorem pollJobStatus_completed_sequence (interval : Nat)
    (snaps : List JobStatusResponse) (fin : JobStatusResponse)
    (hpre : ∀ s ∈ snaps, s.status = .pending ∨ s.status = .processing)
    (hfin : fin.status = .completed) :
    updatesOf (pollEvents interval true ((snaps ++ [fin]).map FetchResult.success)) =
      snaps ++ [fin] ∧
    pollResult interval true ((snaps ++ [fin]).map FetchResult.success) =
      some (.ok fin) := by
  induction snaps with
  | nil =>
      constructor
      · rw [List.nil_append, List.map_cons, List.map_nil, pollEvents_cons_completed hfin]
        simp
      · simp only [pollResult, List.nil_append, List.map_cons, List.map_nil,
          pollEvents_cons_completed hfin]
        simp
  | cons s ss ih =>
      obtain ⟨ih1, ih2⟩ := ih (fun x hx => hpre x (List.mem_cons_of_mem s hx))
      have hs := hpre s (List.mem_cons_self s ss)
      have hstep := pollEvents_cons_nonterminal hs interval true
        ((ss ++ [fin]).map FetchResult.success)
      simp only [pollResult] at ih2 ⊢
      simp only [List.map_append, List.map_cons, List.map_nil, List.cons_append,
        List.nil_append] at ih1 ih2 hstep ⊢
      constructor
      · simp [hstep, ih1]
      · simp [hstep, ih2]

/-- Witness for C1 at the spec's worked example: `pending` at 0 percent,
then `processing` at 40 percent, then `completed` carrying hooks
"Hook A" and "Hook B". -/
theorem pollJobStatus_completed_sequence_witness :
    updatesOf (pollEvents 2000 true
        (([demoPending, demoProcessing] ++ [demoCompleted]).map FetchResult.success)) =
      [demoPending, demoProcessing] ++ [demoCompleted] ∧
    pollResult 2000 true
        (([demoPending, demoProcessing] ++ [demoCompleted]).map FetchResult.success) =
      some (.ok demoCompleted) :=
  pollJobStatus_completed_sequence 2000 [demoPending, demoProcessing] demoCompleted
    (by decide) rfl

/-- C2: for every run whose received responses end in a `failed` snapshot
(the earlier received ones being non-terminal, since polling stops at the
first terminal response), `pollJobStatus` rejects with the failed
snapshot's `message`, or with exactly "Job failed" when that message is
empty. -/
theorem pollJobStatus_failed_sequence (interval : Nat) (cb : Bool)
    (snaps : List JobStatusResponse) (fin : JobStatusResponse)
    (hpre : ∀ s ∈ snaps, s.status = .pending ∨ s.status = .processing)
    (hfin : fin.status = .failed) :
    pollResult interval cb ((snaps ++ [fin]).map FetchResult.success) =
      some (.error (.errorMessage
        (if fin.message = "" then "Job failed" else fin.message))) := by
  induction snaps with
  | nil =>
      simp only [pollResult, List.nil_append, List.map_cons, List.map_nil,
        pollEvents_cons_failed hfin]
      rw [settleOf_request, settleOf_callback_block]
      simp [jsOrElse]
  | cons s ss ih =>
      have ih2 := ih (fun x hx => hpre x (List.mem_cons_of_mem s hx))
      have hs := hpre s (List.mem_cons_self s ss)
      have hstep := pollEvents_cons_nonterminal hs interval cb
        ((ss ++ [fin]).map FetchResult.success)
      simp only [pollResult] at ih2 ⊢
      simp only [List.map_append, List.map_cons, List.map_nil, List.cons_append,
        List.nil_append] at ih2 hstep ⊢
      rw [hstep, settleOf_request, settleOf_callback_block, settleOf_sleep]
      exact ih2

/-- Witness for C2: one `pending` response, then `failed` with message
"Transcription error"; the run rejects with exactly that text. -/
theorem pollJobStatus_failed_sequence_witness :
    pollResult 2000 false (([demoPending] ++ [demoFailed]).map FetchResult.success) =
      some (.error (.errorMessage
        (if demoFailed.message = "" then "Job failed" else demoFailed.message))) :=
  pollJobStatus_failed_sequence 2000 false [demoPending] demoFailed (by decide) rfl

/-- C3: once a run settles — which happens in the very tick that observes a
terminal (`completed` or `failed`) response or a transport error, with no
intervening await — nothing further happens in the trace: in particular no
later `getJobStatus` call is issued for that job. -/
theorem pollJobStatus_stops_after_terminal (interval : Nat) (cb : Bool)
    (script : List FetchResult) (pre : List PollEvent) (e : PollEvent)
    (post : List PollEvent)
    (htrace : pollEvents interval cb script = pre ++ e :: post)
    (hsettle : e.isSettle = true) :
    PollEvent.request ∉ post ∧ post = [] := by
  have h := settleOnlyLast_pollEvents interval cb script
  rw [htrace] at h
  have hp := settleOnlyLast_extract pre e post h hsettle
  subst hp
  exact ⟨by simp, rfl⟩

/-- Witness for C3: a single `completed` response settles the run and the
trace ends there. -/
theorem pollJobStatus_stops_after_terminal_witness :
    PollEvent.request ∉ ([] : List PollEvent) ∧ ([] : List PollEvent) = [] :=
  pollJobStatus_stops_after_terminal 7 true [FetchResult.success demoCompleted]
    [PollEvent.request, PollEvent.update demoCompleted]
    (PollEvent.resolved demoCompleted) [] rfl rfl

/-- The optional callback block contains no request. -/
theorem requestCount_callback_block (cb : Bool) (s : JobStatusResponse)
    (es : List PollEvent) :
    requestCount ((if cb then [PollEvent.update s] else []) ++ es) = requestCount es := by
  cases cb <;> simp

/-- C4: if the `getJobStatus` call of some tick fails (network error,
non-2xx status, or malformed body), the run rejects immediately with that
error: the trace is unchanged by any responses the transport could have
produced later, and exactly one request per earlier response plus the
failing one have been issued — the failing request is never retried. -/
theorem pollJobStatus_transport_error_stops (interval : Nat) (cb : Bool)
    (snaps : List JobStatusResponse) (er : FetchResult) (rest : List FetchResult)
    (e : ApiFailure)
    (hpre : ∀ s ∈ snaps, s.status = .pending ∨ s.status = .processing)
    (herr : getJobStatus er = .error e) :
    pollEvents interval cb (snaps.map FetchResult.success ++ er :: rest) =
      pollEvents interval cb (snaps.map FetchResult.success ++ [er]) ∧
    pollResult interval cb (snaps.map FetchResult.success ++ er :: rest) =
      some (.error e) ∧
    requestCount (pollEvents interval cb (snaps.map FetchResult.success ++ er :: rest)) =
      snaps.length + 1 := by
  induction snaps with
  | nil =>
      simp only [List.map_nil, List.nil_append, List.length_nil, pollResult]
      rw [pollEvents_cons_error herr interval cb rest,
        pollEvents_cons_error herr interval cb []]
      exact ⟨rfl, rfl, rfl⟩
  | cons s ss ih =>
      obtain ⟨ih1, ih2, ih3⟩ := ih (fun x hx => hpre x (List.mem_cons_of_mem s hx))
      have hs := hpre s (List.mem_cons_self s ss)
      have hstep1 := pollEvents_cons_nonterminal hs interval cb
        (ss.map FetchResult.success ++ er :: rest)
      have hstep2 := pollEvents_cons_nonterminal hs interval cb
        (ss.map FetchResult.success ++ [er])
      simp only [pollResult] at ih2 ⊢
      simp only [List.map_cons, List.cons_append] at hstep1 hstep2 ⊢
      rw [hstep1, hstep2]
      refine ⟨by rw [ih1], ?_, ?_⟩
      · rw [settleOf_request, settleOf_callback_block, settleOf_sleep]
        exact ih2
      · rw [requestCount_request, requestCount_callback_block, requestCount_sleep, ih3]
        simp [List.length_cons]

/-- Witness for C4: one `pending` response, then a network error, with one
more response scheduled behind it that is never requested. -/
theorem pollJobStatus_transport_error_stops_witness :
    pollEvents 2000 true
        ([demoPending].map FetchResult.success ++
          FetchResult.networkError :: [FetchResult.success demoCompleted]) =
      pollEvents 2000 true
        ([demoPending].map FetchResult.success ++ [FetchResult.networkError]) ∧
    pollResult 2000 true
        ([demoPending].map FetchResult.success ++
          FetchResult.networkError :: [FetchResult.success demoCompleted]) =
      some (.error .networkFailure) ∧
    requestCount (pollEvents 2000 true
        ([demoPending].map FetchResult.success ++
          FetchResult.networkError :: [FetchResult.success demoCompleted])) =
      [demoPending].length + 1 :=
  pollJobStatus_transport_error_stops 2000 true [demoPending] FetchResult.networkError
    [FetchResult.success demoCompleted] ApiFailure.networkFailure (by decide) rfl

/-- C5: requests never overlap.  The trace opens with the sole initial
request, and any two consecutive trace positions where the later one is a
request force the earlier one to be the completed `setTimeout` delay: a new
`getJobStatus` call is issued only after the previous call's response has
been fully processed and the timer has fired, so at most one request is in
flight at any time. -/
theorem pollJobStatus_no_overlapping_requests (interval : Nat) (cb : Bool)
    (script : List FetchResult) :
    (pollEvents interval cb script).head? = some PollEvent.request ∧
    List.Chain' (fun e f => f = PollEvent.request → e = PollEvent.sleep interval)
      (pollEvents interval cb script) := by
  refine ⟨pollEvents_head interval cb script, ?_⟩
  induction script with
  | nil => simp [pollEvents]
  | cons r rs ih =>
      have hsleepT : List.Chain'
          (fun e f => f = PollEvent.request → e = PollEvent.sleep interval)
          (PollEvent.sleep interval :: pollEvents interval cb rs) :=
        List.chain'_cons'.mpr ⟨fun _ _ _ => rfl, ih⟩
      cases r with
      | success body =>
          rcases hb : body.status with _ | _ | _ | _
          · rw [pollEvents_cons_nonterminal (Or.inl hb)]
            cases cb <;> simp_all [List.chain'_cons]
          · rw [pollEvents_cons_nonterminal (Or.inr hb)]
            cases cb <;> simp_all [List.chain'_cons]
          · rw [pollEvents_cons_completed hb]
            cases cb <;> simp [List.chain'_cons]
          · rw [pollEvents_cons_failed hb]
            cases cb <;> simp [List.chain'_cons]
      | networkError => simp [pollEvents, getJobStatus, List.chain'_cons]
      | successMalformed => simp [pollEvents, getJobStatus, List.chain'_cons]
      | failure detail => simp [pollEvents, getJobStatus, List.chain'_cons]
      | failureMalformed => simp [pollEvents, getJobStatus, List.chain'_cons]

/-- C6: the first status query is issued immediately (the trace of every
run opens with a request, before any delay); each `pending` or `processing`
response is followed by exactly one `setTimeout` of the configured interval
and then the next query; and the interval defaults to 2000 ms — a positive
duration, as the spec requires — when the caller supplies none. -/
theorem pollJobStatus_immediate_then_interval (interval : Nat) (cb : Bool)
    (r : FetchResult) (s : JobStatusResponse) (rs : List FetchResult)
    (hok : getJobStatus r = .ok s)
    (hnt : s.status = .pending ∨ s.status = .processing) :
    defaultPollInterval = 2000 ∧
    0 < defaultPollInterval ∧
    pollEventsDefault cb (r :: rs) = pollEvents 2000 cb (r :: rs) ∧
    (∀ script : List FetchResult,
      (pollEvents interval cb script).head? = some PollEvent.request) ∧
    pollEvents interval cb (r :: rs) =
      PollEvent.request :: ((if cb then [PollEvent.update s] else []) ++
        PollEvent.sleep interval :: pollEvents interval cb rs) ∧
    (pollEvents interval cb rs).head? = some PollEvent.request := by
  have hr : r = FetchResult.success s := by
    cases r <;> simp_all [getJobStatus]
  subst hr
  exact ⟨rfl, by decide, rfl, fun script => pollEvents_head interval cb script,
    pollEvents_cons_nonterminal hnt interval cb rs,
    pollEvents_head interval cb rs⟩

/-- Witness for C6 at a single `pending` response with the default 2000 ms
interval. -/
theorem pollJobStatus_immediate_then_interval_witness :
    defaultPollInterval = 2000 ∧
    0 < defaultPollInterval ∧
    pollEventsDefault true (FetchResult.success demoPending :: []) =
      pollEvents 2000 true (FetchResult.success demoPending :: []) ∧
    (∀ script : List FetchResult,
      (pollEvents 2000 true script).head? = some PollEvent.request) ∧
    pollEvents 2000 true (FetchResult.success demoPending :: []) =
      PollEvent.request :: ((if true then [PollEvent.update demoPending] else []) ++
        PollEvent.sleep 2000 :: pollEvents 2000 true []) ∧
    (pollEvents 2000 true []).head? = some PollEvent.request :=
  pollJobStatus_immediate_then_interval 2000 true (FetchResult.success demoPending)
    demoPending [] rfl (Or.inl rfl)

/-- C7: on a non-2xx response from the status endpoint — which per the
endpoint contract carries a JSON body with an optional `detail` string —
`getJobStatus` throws an error whose message is the `detail` string, or
exactly "Failed to get job status" when `detail` is empty or absent, and
never returns a status snapshot. -/
theorem getJobStatus_non2xx_behavior :
    (∀ d : String, d ≠ "" →
      getJobStatus (.failure (some d)) = .error (.errorMessage d)) ∧
    getJobStatus (.failure (some "")) =
      .error (.errorMessage "Failed to get job status") ∧
    getJobStatus (.failure none) =
      .error (.errorMessage "Failed to get job status") ∧
    (∀ (detail : Option String) (s : JobStatusResponse),
      getJobStatus (.failure detail) ≠ .ok s) := by
  refine ⟨?_, rfl, rfl, ?_⟩
  · intro d hd
    simp [getJobStatus, jsOrElse, hd]
  · intro detail s h
    simp [getJobStatus] at h

/-- Witness for C7 at the nonempty detail string "boom". -/
theorem getJobStatus_non2xx_behavior_witness :
    getJobStatus (.failure (some "boom")) = .error (.errorMessage "boom") :=
  getJobStatus_non2xx_behavior.1 "boom" (by decide)

/-- Counterexample to C8 as stated: when session storage holds no token,
`getJobStatus` still issues its status request, and that request carries no
`Authorization` header at all — so not every status request carries a
bearer token. -/
theorem getJobStatus_request_without_token_lacks_auth :
    (getJobStatusRequest none "job-1").headers = [("Content-Type", "application/json")] ∧
    ∀ p ∈ (getJobStatusRequest none "job-1").headers, p.1 ≠ "Authorization" := by
  constructor
  · rfl
  · decide

/-- C8 as amended: every upload request carries the stored bearer token —
`uploadVideo` refuses to send anything when session storage holds no token
or an empty-string token, both falsy under the source's `if (!token)` —
and every status request carries the stored bearer token whenever session
storage holds a nonempty token at the time of the call; with empty session
storage or a stored empty-string token the status request goes out without
an `Authorization` header. -/
theorem requests_carry_bearer_when_token_stored (t jobId : String) (ht : t ≠ "") :
    ("Authorization", "Bearer " ++ t) ∈ (getJobStatusRequest (some t) jobId).headers ∧
    (∀ r ∈ uploadRequestsIssued (some t),
      ("Authorization", "Bearer " ++ t) ∈ r.headers) ∧
    uploadRequestsIssued none = [] ∧
    uploadRequestsIssued (some "") = [] ∧
    (getJobStatusRequest (some "") jobId).headers =
      [("Content-Type", "application/json")] := by
  refine ⟨?_, ?_, rfl, rfl, rfl⟩
  · simp [getJobStatusRequest, getToken, truthyToken, ht]
  · intro r hr
    simp only [uploadRequestsIssued, uploadVideoSend, getToken, truthyToken, ht,
      if_false, List.mem_singleton] at hr
    subst hr
    simp [uploadRequest]

/-- Witness for the amended C8 at the nonempty token "tok". -/
theorem requests_carry_bearer_when_token_stored_witness :
    ("Authorization", "Bearer " ++ "tok") ∈
      (getJobStatusRequest (some "tok") "job-1").headers ∧
    ("Authorization", "Bearer " ++ "tok") ∈ (uploadRequest "tok").headers :=
  ⟨(requests_carry_bearer_when_token_stored "tok" "job-1" (by decide)).1,
   (requests_carry_bearer_when_token_stored "tok" "job-1" (by decide)).2.1
     (uploadRequest "tok") (by decide)⟩

/-- C9: whenever a terminal response is observed with a callback supplied,
the callback is invoked with that snapshot strictly before the promise
settles: the trace ends with the `onUpdate` invocation for the terminal
snapshot immediately followed by the settlement — resolution for
`completed`, rejection with the snapshot's message (or the fallback) for
`failed`. -/
theorem pollJobStatus_callback_before_settle (interval : Nat)
    (snaps : List JobStatusResponse) (fin : JobStatusResponse)
    (hpre : ∀ s ∈ snaps, s.status = .pending ∨ s.status = .processing)
    (hterm : fin.status = .completed ∨ fin.status = .failed) :
    ∃ (pre : List PollEvent) (settle : PollEvent),
      pollEvents interval true ((snaps ++ [fin]).map FetchResult.success) =
        pre ++ [PollEvent.update fin, settle] ∧
      settle.isSettle = true ∧
      (fin.status = .completed → settle = PollEvent.resolved fin) ∧
      (fin.status = .failed → settle = PollEvent.rejected
        (.errorMessage (jsOrElse fin.message "Job failed"))) := by
  induction snaps with
  | nil =>
      rcases hterm with h | h
      · refine ⟨[PollEvent.request], PollEvent.resolved fin, ?_, rfl, fun _ => rfl, ?_⟩
        · rw [List.nil_append, List.map_cons, List.map_nil,
            pollEvents_cons_completed h]
          simp
        · intro hf
          rw [h] at hf
          cases hf
      · refine ⟨[PollEvent.request],
          PollEvent.rejected (.errorMessage (jsOrElse fin.message "Job failed")),
          ?_, rfl, ?_, fun _ => rfl⟩
        · rw [List.nil_append, List.map_cons, List.map_nil,
            pollEvents_cons_failed h]
          simp
        · intro hc
          rw [h] at hc
          cases hc
  | cons s ss ih =>
      obtain ⟨pre, settle, h1, h2, h3, h4⟩ :=
        ih (fun x hx => hpre x (List.mem_cons_of_mem s hx))
      have hs := hpre s (List.mem_cons_self s ss)
      have hstep := pollEvents_cons_nonterminal hs interval true
        ((ss ++ [fin]).map FetchResult.success)
      refine ⟨PollEvent.request :: PollEvent.update s :: PollEvent.sleep interval :: pre,
        settle, ?_, h2, h3, h4⟩
      simp only [List.map_append, List.map_cons, List.map_nil, List.cons_append,
        List.nil_append] at hstep h1 ⊢
      rw [hstep, h1]
      simp

/-- Witness for C9: `pending` then `failed` with a nonempty message; the
callback fires on the failed snapshot right before the rejection. -/
theorem pollJobStatus_callback_before_settle_witness :
    ∃ (pre : List PollEvent) (settle : PollEvent),
      pollEvents 2000 true (([demoPending] ++ [demoFailed]).map FetchResult.success) =
        pre ++ [PollEvent.update demoFailed, settle] ∧
      settle.isSettle = true ∧
      (demoFailed.status = .completed → settle = PollEvent.resolved demoFailed) ∧
      (demoFailed.status = .failed → settle = PollEvent.rejected
        (.errorMessage (jsOrElse demoFailed.message "Job failed"))) :=
  pollJobStatus_callback_before_settle 2000 [demoPending] demoFailed
    (by decide) (Or.inr rfl)

/-- C10: with no token in session storage, `uploadVideo` throws exactly
"Not authenticated. Please log in." before the `XMLHttpRequest` is even
constructed, so no upload request is put on the wire without a stored
token. -/
theorem uploadVideo_requires_token :
    uploadVideoSend none = .error (.errorMessage "Not authenticated. Please log in.") ∧
    uploadRequestsIssued none = [] :=
  ⟨rfl, rfl⟩

end TikTokApi
